import Mathlib

/-!
Shallow embedding of the Tic-Tac-Toe game engine in `src/App.js`
(the `Game` React component) and proofs of its specification.

The JS state is three `useState` hooks:
  `roundNum : number`, `squares : Array(9) | null`, `history : Array(9)`.
Cells hold `"X"`, `"O"` or `null`; history slots hold a board snapshot or
`null`. We model a cell as `Option Player`, a board as `List (Option Player)`,
and — because `backToState` can assign `history[index]` (possibly `null`)
to `squares` — the `squares` state as `Option Board` where `none` models the
JS `null` board. JS array reads out of range yield `undefined`, which is
falsy like `null`; both are modelled by `none` (via `List.getD _ _ none`).
JS array writes past the end extend the array, filling holes with
`undefined`; `jsArraySet` models this.
-/

namespace TicTacToe

/-- A marker: the JS strings `"X"` (`p1`) and `"O"` (`p2`). -/
inductive Player where
  | X : Player
  | O : Player
deriving DecidableEq, Repr

/-- The display string of a marker, as concatenated into the status. -/
def Player.str : Player → String
  | Player.X => "X"
  | Player.O => "O"

/-- A board: the JS `squares` array. A cell is `none` (JS `null`) or a marker. -/
abbrev Board := List (Option Player)

/-- A JS array write `l[i] = v`: in range it overwrites; past the end it
extends the array, holes reading as `undefined` (modelled `none`). -/
def jsArraySet {α : Type} (l : List (Option α)) (i : Nat) (v : Option α) :
    List (Option α) :=
  if i < l.length then l.set i v
  else l ++ List.replicate (i - l.length) none ++ [v]

/-- The state of the `Game` component: the three `useState` hooks.
`squares = none` models the JS `null` board that `backToState` can install. -/
structure GameState where
  roundNum : Nat
  squares : Option Board
  history : List (Option Board)
deriving DecidableEq, Repr

/-- The initial hook values: `roundNum = 0`, `squares = Array(9).fill(null)`,
`history = Array(9).fill(null)`. -/
def initState : GameState :=
  { roundNum := 0
    squares := some (List.replicate 9 none)
    history := List.replicate 9 none }

/-- The `lines` array of `calculateWinner`: the 8 triples checked, in source
order (rows, then columns, then diagonals). -/
def lines : List (Nat × Nat × Nat) :=
  [(0, 1, 2), (3, 4, 5), (6, 7, 8),
   (0, 3, 6), (1, 4, 7), (2, 5, 8),
   (0, 4, 8), (2, 4, 6)]

/-- The loop of `calculateWinner`: scan the given triples in order; on the
first triple whose three cells are truthy (non-`null`) and pairwise equal
(`squares[a] === squares[b] && squares[a] === squares[c] &&
squares[b] === squares[c]`), return `squares[a]`; otherwise fall through
and return `false` (modelled `none`). -/
def winnerLoop (squares : Board) : List (Nat × Nat × Nat) → Option Player
  | [] => none
  | (a, b, c) :: rest =>
    match squares.getD a none, squares.getD b none, squares.getD c none with
    | some x, some y, some z =>
      if x = y ∧ x = z ∧ y = z then some x else winnerLoop squares rest
    | _, _, _ => winnerLoop squares rest

/-- `calculateWinner`: note the JS function ignores its call-site argument and
reads the component's `squares` closure variable; both always denote the
current board, so we pass that board explicitly. -/
def calculateWinner (squares : Board) : Option Player :=
  winnerLoop squares lines

/-- The `status` string computed by `checkGameOver`: the `roundNum >= 9`
branch is tested FIRST, then `winner`, then the next-player message with
`p1 = "X"` on even rounds and `p2 = "O"` on odd rounds. -/
def checkGameOverStatus (roundNum : Nat) (squares : Board) : String :=
  if 9 ≤ roundNum then "Game Over, it\x27s a draw!"
  else
    match calculateWinner squares with
    | some w => "Winner: " ++ w.str
    | none => "Next player: " ++ (if roundNum % 2 = 0 then "X" else "O")

/-- The `againContent` test of `checkGameOver`: a restart button is offered
iff `roundNum >= 9 || winner`. -/
def checkGameOverAgain (roundNum : Nat) (squares : Board) : Bool :=
  decide (9 ≤ roundNum) || (calculateWinner squares).isSome

/-- `reloadPage`: resets all three hooks to their initial values, ignoring
the prior state. -/
def reloadPage (_ : GameState) : GameState :=
  initState

/-- The history-clearing loop of `backToState`: `for (let i = index;
i < history.length; i++) modifiedHistory[i] = null`. -/
def clearFrom {α : Type} : List (Option α) → Nat → List (Option α)
  | [], _ => []
  | _ :: t, 0 => none :: clearFrom t 0
  | v :: t, i + 1 => v :: clearFrom t i

/-- `backToState(index)`: sets `squares` to `history[index]` (which is the JS
`null` — here `none` — when the slot is empty or out of range), nulls the
history slots from `index` on, and sets `roundNum` to `index`. -/
def backToState (s : GameState) (index : Nat) : GameState :=
  { roundNum := index
    squares := s.history.getD index none
    history := clearFrom s.history index }

/-- `Clicked(index)`, the move handler. Returns `none` when the JS code would
throw (reading `squares[index]` with `squares === null`). Otherwise: no-op
(state returned unchanged) when `squares[index]` is truthy or
`calculateWinner()` is truthy; else write the current player's marker at
`index`, increment `roundNum`, and store the pre-move board in
`history[roundNum]`. -/
def Clicked (s : GameState) (index : Nat) : Option GameState :=
  match s.squares with
  | none => none
  | some squares =>
    if (squares.getD index none).isSome || (calculateWinner squares).isSome then
      some s
    else
      some
        { roundNum := s.roundNum + 1
          squares := some (jsArraySet squares index
            (some (if s.roundNum % 2 = 0 then Player.X else Player.O)))
          history := jsArraySet s.history s.roundNum (some squares) }

/-- The states reachable through the UI: the initial render; a click on one
of the 9 rendered squares (`renderSquare` is called for indexes 0–8 only);
a click on a history button (rendered only for non-`null` slots); and the
restart button. -/
inductive Reachable : GameState → Prop where
  | init : Reachable initState
  | move {s s' : GameState} {index : Nat} :
      Reachable s → index < 9 → Clicked s index = some s' → Reachable s'
  | rewind {s : GameState} {index : Nat} :
      Reachable s → s.history.getD index none ≠ none →
      Reachable (backToState s index)
  | reset {s : GameState} : Reachable s → Reachable (reloadPage s)

/-- Number of non-empty cells of a board. -/
def marks (b : Board) : Nat :=
  b.countP (fun c => c.isSome)

/-- Spec-side description of one triple check: the shared marker when the
triple's three cells are equal and non-empty, otherwise `none`. Written from
the spec's words, to be compared with `calculateWinner`. -/
def tripleSharedMarker (squares : Board) : Nat × Nat × Nat → Option Player
  | (a, b, c) =>
    match squares.getD a none with
    | none => none
    | some x =>
      if squares.getD b none = some x ∧ squares.getD c none = some x then
        some x
      else none

/-- Folding a list of square clicks over a state, ignoring a thrown click
(`none`) the way an uncaught render exception leaves state unchanged. Used to
build concrete reachable games. -/
def clickFold (s : GameState) (l : List Nat) : GameState :=
  l.foldl (fun s i => (Clicked s i).getD s) s

/-- A full drawn game: X at 0,2,3,4,7 and O at 1,5,6,8, played in an order
that never completes a line. -/
def mvSeqDraw : List Nat := [0, 1, 2, 5, 3, 6, 4, 8, 7]

/-- A game X wins exactly on the 9th move (cell 2 completes row 0,1,2 and
fills the board). -/
def mvSeqWin9 : List Nat := [0, 3, 1, 4, 5, 7, 6, 8, 2]

/-- The all-empty 9-cell board `Array(9).fill(null)`. -/
def emptyBoard : Board := List.replicate 9 none

/-- The state after the two opening moves X at 0 and O at 1. -/
def demoState : GameState := clickFold initState [0, 1]

/-- The board of `demoState`. -/
def demoBoard2 : Board :=
  [some Player.X, some Player.O, none, none, none, none, none, none, none]

/-- The board after only X's opening move at 0: the snapshot that
`demoState.history` holds at slot 1. -/
def demoBoardX : Board :=
  [some Player.X, none, none, none, none, none, none, none, none]

/-- The state after the drawn game `mvSeqDraw`. -/
def drawState : GameState := clickFold initState mvSeqDraw

/-- The state after the win-on-move-9 game `mvSeqWin9`. -/
def win9State : GameState := clickFold initState mvSeqWin9

/-- The board of `win9State`: row 0 is X X X, and the board is full. -/
def win9Board : Board :=
  [some Player.X, some Player.X, some Player.X,
   some Player.O, some Player.O, some Player.X,
   some Player.X, some Player.O, some Player.O]

/-- The invariant maintained by the UI-reachable states: the board is a real
(non-`null`) 9-cell array with exactly `roundNum` marks, the history keeps
its 9 slots, and a filled history slot `i` holds a 9-cell snapshot with
exactly `i` marks. -/
structure Inv (s : GameState) : Prop where
  board : ∃ b, s.squares = some b ∧ b.length = 9 ∧ marks b = s.roundNum
  histLen : s.history.length = 9
  histSlots : ∀ i b0, s.history.getD i none = some b0 →
    b0.length = 9 ∧ marks b0 = i

/-! ### List helper lemmas -/

lemma getD_set_eq {α : Type} (l : List α) (i : Nat) (v d : α)
    (h : i < l.length) : (l.set i v).getD i d = v := by
  induction l generalizing i with
  | nil => simp at h
  | cons a t ih =>
    cases i with
    | zero => rfl
    | succ i => exact ih i (Nat.lt_of_succ_lt_succ h)

lemma getD_set_ne {α : Type} (l : List α) (i j : Nat) (v d : α)
    (h : i ≠ j) : (l.set i v).getD j d = l.getD j d := by
  induction l generalizing i j with
  | nil => rfl
  | cons a t ih =>
    cases i with
    | zero =>
      cases j with
      | zero => exact absurd rfl h
      | succ j => rfl
    | succ i =>
      cases j with
      | zero => rfl
      | succ j => exact ih i j (fun e => h (by rw [e]))

lemma getD_replicate_none {α : Type} (n i : Nat) :
    (List.replicate n (none : Option α)).getD i none = none := by
  induction n generalizing i with
  | zero => rfl
  | succ n ih =>
    cases i with
    | zero => rfl
    | succ i => exact ih i

lemma jsArraySet_of_lt {α : Type} (l : List (Option α)) (i : Nat)
    (v : Option α) (h : i < l.length) : jsArraySet l i v = l.set i v := by
  simp [jsArraySet, h]

lemma getD_jsArraySet_self {α : Type} (l : List (Option α)) (i : Nat)
    (v : Option α) : (jsArraySet l i v).getD i none = v := by
  unfold jsArraySet
  split
  · exact getD_set_eq _ _ _ _ (by assumption)
  · rename_i hge
    have hle : l.length ≤ i := Nat.le_of_not_lt hge
    rw [List.append_assoc, List.getD_append_right _ _ _ _ hle,
      List.getD_append_right _ _ _ _ (by simp)]
    simp

lemma getD_jsArraySet_ne {α : Type} (l : List (Option α)) (i j : Nat)
    (v : Option α) (h : j ≠ i) :
    (jsArraySet l i v).getD j none = l.getD j none := by
  unfold jsArraySet
  split
  · exact getD_set_ne _ _ _ _ _ (fun e => h e.symm)
  · rename_i hge
    have hli : l.length ≤ i := Nat.le_of_not_lt hge
    by_cases hj : j < l.length
    · rw [List.append_assoc, List.getD_append _ _ _ _ hj]
    · have hlj : l.length ≤ j := Nat.le_of_not_lt hj
      rw [List.getD_eq_default _ _ hlj, List.append_assoc,
        List.getD_append_right _ _ _ _ hlj]
      by_cases hji : j - l.length < i - l.length
      · rw [List.getD_append _ _ _ _ (by simpa using hji)]
        exact getD_replicate_none _ _
      · have hij : i - l.length < j - l.length := by omega
        rw [List.getD_append_right _ _ _ _ (by simpa using Nat.le_of_lt hij)]
        rw [List.getD_eq_default]
        simp only [List.length_replicate, List.length_cons, List.length_nil]
        omega

lemma length_clearFrom {α : Type} (l : List (Option α)) (k : Nat) :
    (clearFrom l k).length = l.length := by
  induction l generalizing k with
  | nil => rfl
  | cons a t ih =>
    cases k with
    | zero => simpa [clearFrom] using ih 0
    | succ k => simpa [clearFrom] using ih k

lemma getD_clearFrom_of_le {α : Type} (l : List (Option α)) (k i : Nat)
    (h : k ≤ i) : (clearFrom l k).getD i none = none := by
  induction l generalizing k i with
  | nil => rfl
  | cons a t ih =>
    cases k with
    | zero =>
      cases i with
      | zero => rfl
      | succ i => exact ih 0 i (Nat.zero_le i)
    | succ k =>
      cases i with
      | zero => omega
      | succ i => exact ih k i (Nat.le_of_succ_le_succ h)

lemma getD_clearFrom_of_lt {α : Type} (l : List (Option α)) (k i : Nat)
    (h : i < k) : (clearFrom l k).getD i none = l.getD i none := by
  induction l generalizing k i with
  | nil => rfl
  | cons a t ih =>
    cases k with
    | zero => omega
    | succ k =>
      cases i with
      | zero => rfl
      | succ i => exact ih k i (Nat.lt_of_succ_lt_succ h)

/-! ### Mark-counting lemmas -/

lemma marks_replicate (n : Nat) : marks (List.replicate n none) = 0 := by
  induction n with
  | zero => rfl
  | succ n ih => simp [marks, List.replicate_succ, List.countP_cons, ih]

lemma marks_le_length (b : Board) : marks b ≤ b.length :=
  List.countP_le_length _

lemma marks_set_some (b : Board) (i : Nat) (p : Player) (hi : i < b.length)
    (he : b.getD i none = none) : marks (b.set i (some p)) = marks b + 1 := by
  have hcell : b[i] = none := by
    rw [← List.getD_eq_getElem b none hi]; exact he
  rw [marks, marks, List.countP_set _ _ _ _ hi, hcell]
  simp

lemma board_full_isSome (b : Board) (hm : marks b = b.length) (i : Nat)
    (hi : i < b.length) : (b.getD i none).isSome = true := by
  have hall := List.countP_eq_length.mp hm
  rw [List.getD_eq_getElem b none hi]
  exact hall _ (List.getElem_mem hi)

/-! ### The reachable-state invariant -/

lemma inv_initState : Inv initState := by
  refine ⟨⟨List.replicate 9 none, rfl, by simp, marks_replicate 9⟩, by
    simp [initState], ?_⟩
  intro i b0 h
  rw [show initState.history = List.replicate 9 none from rfl,
    getD_replicate_none] at h
  exact absurd h (by simp)

lemma inv_Clicked {s s' : GameState} {index : Nat} (hs : Inv s)
    (hidx : index < 9) (hc : Clicked s index = some s') : Inv s' := by
  obtain ⟨b, hsq, hlen, hmk⟩ := hs.board
  simp only [Clicked, hsq] at hc
  by_cases hguard :
      ((b.getD index none).isSome || (calculateWinner b).isSome) = true
  · rw [if_pos hguard] at hc
    cases hc
    exact hs
  · rw [if_neg hguard] at hc
    have hempty : b.getD index none = none := by
      rcases h : b.getD index none with _ | x
      · rfl
      · rw [h] at hguard; simp at hguard
    have hround : s.roundNum < 9 := by
      by_contra h9
      have hfull : marks b = b.length := by
        have h1 := marks_le_length b
        omega
      have := board_full_isSome b hfull index (by omega)
      rw [hempty] at this
      simp at this
    cases hc
    refine ⟨⟨_, rfl, ?_, ?_⟩, ?_, ?_⟩
    · rw [jsArraySet_of_lt _ _ _ (by omega), List.length_set]
      exact hlen
    · rw [jsArraySet_of_lt _ _ _ (by omega),
        marks_set_some b index _ (by omega) hempty, hmk]
    · show (jsArraySet s.history s.roundNum (some b)).length = 9
      rw [jsArraySet_of_lt s.history s.roundNum (some b)
        (by rw [hs.histLen]; omega), List.length_set]
      exact hs.histLen
    · intro i b0 h
      replace h : (jsArraySet s.history s.roundNum (some b)).getD i none
          = some b0 := h
      by_cases hieq : i = s.roundNum
      · subst hieq
        rw [getD_jsArraySet_self] at h
        cases h
        exact ⟨hlen, hmk⟩
      · rw [getD_jsArraySet_ne _ _ _ _ hieq] at h
        exact hs.histSlots i b0 h

lemma inv_backToState {s : GameState} {index : Nat} (hs : Inv s)
    (hne : s.history.getD index none ≠ none) : Inv (backToState s index) := by
  rcases hslot : s.history.getD index none with _ | b0
  · exact absurd hslot hne
  obtain ⟨hl0, hm0⟩ := hs.histSlots index b0 hslot
  refine ⟨⟨b0, ?_, hl0, hm0⟩, ?_, ?_⟩
  · rw [show (backToState s index).squares = s.history.getD index none
      from rfl, hslot]
  · rw [show (backToState s index).history = clearFrom s.history index
      from rfl, length_clearFrom]
    exact hs.histLen
  · intro i b1 h
    rw [show (backToState s index).history = clearFrom s.history index
      from rfl] at h
    by_cases hik : index ≤ i
    · rw [getD_clearFrom_of_le _ _ _ hik] at h
      exact absurd h (by simp)
    · rw [getD_clearFrom_of_lt _ _ _ (by omega)] at h
      exact hs.histSlots i b1 h

lemma inv_of_reachable {s : GameState} (h : Reachable s) : Inv s := by
  induction h with
  | init => exact inv_initState
  | move _ hidx hc ih => exact inv_Clicked ih hidx hc
  | rewind _ hne ih => exact inv_backToState ih hne
  | reset _ _ => exact inv_initState

lemma winnerLoop_eq_findSome (squares : Board)
    (l : List (Nat × Nat × Nat)) :
    winnerLoop squares l = l.findSome? (tripleSharedMarker squares) := by
  induction l with
  | nil => rfl
  | cons t rest ih =>
    obtain ⟨a, b, c⟩ := t
    rw [List.findSome?_cons]
    rcases ha : squares.getD a none with _ | x
    · simp only [winnerLoop, ha]
      rw [show tripleSharedMarker squares (a, b, c) = none by
        simp only [tripleSharedMarker, ha]]
      exact ih
    · rcases hb : squares.getD b none with _ | y
      · simp only [winnerLoop, ha, hb]
        rw [show tripleSharedMarker squares (a, b, c) = none by
          simp only [tripleSharedMarker, ha, hb]
          rw [if_neg]
          rintro ⟨e1, _⟩
          exact Option.noConfusion e1]
        exact ih
      · rcases hc : squares.getD c none with _ | z
        · simp only [winnerLoop, ha, hb, hc]
          rw [show tripleSharedMarker squares (a, b, c) = none by
            simp only [tripleSharedMarker, ha, hb, hc]
            rw [if_neg]
            rintro ⟨_, e2⟩
            exact Option.noConfusion e2]
          exact ih
        · simp only [winnerLoop, ha, hb, hc]
          by_cases heq : x = y ∧ x = z ∧ y = z
          · obtain ⟨h1, h2, _⟩ := heq
            subst h1
            subst h2
            rw [if_pos ⟨rfl, rfl, rfl⟩]
            rw [show tripleSharedMarker squares (a, b, c) = some x by
              simp only [tripleSharedMarker, ha]
              rw [if_pos ⟨hb, hc⟩]]
          · rw [if_neg heq]
            rw [show tripleSharedMarker squares (a, b, c) = none by
              simp only [tripleSharedMarker, ha, hb, hc]
              rw [if_neg]
              rintro ⟨e1, e2⟩
              injection e1 with e1
              injection e2 with e2
              exact heq ⟨e1.symm, e2.symm, by rw [e1, e2]⟩]
            exact ih

lemma reachable_clickFold (s : GameState) (l : List Nat) (hr : Reachable s)
    (hl : ∀ i ∈ l, i < 9) : Reachable (clickFold s l) := by
  induction l generalizing s with
  | nil => exact hr
  | cons i t ih =>
    have hstep : Reachable ((Clicked s i).getD s) := by
      rcases hc : Clicked s i with _ | s'
      · simpa using hr
      · exact Reachable.move hr (hl i (by simp)) hc
    exact ih _ hstep (fun j hj => hl j (by simp [hj]))

/-! ### The claims -/

/-- Claim C4: `calculateWinner` checks exactly the 8 triples — rows
(0,1,2),(3,4,5),(6,7,8), columns (0,3,6),(1,4,7),(2,5,8), diagonals
(0,4,8),(2,4,6) — in that order, and returns the shared marker of the first
triple whose three cells are equal and non-empty
(`tripleSharedMarker`, via first-match `List.findSome?`), `none` when no
triple matches. -/
theorem c4_calculateWinner_lines_first_match :
    lines = [(0, 1, 2), (3, 4, 5), (6, 7, 8), (0, 3, 6), (1, 4, 7),
      (2, 5, 8), (0, 4, 8), (2, 4, 6)] ∧
    ∀ squares : Board,
      calculateWinner squares = List.findSome? (tripleSharedMarker squares) lines :=
  ⟨rfl, fun squares => winnerLoop_eq_findSome squares lines⟩

/-- Claim C8: `reloadPage` produces exactly the start state from every prior
state: all-empty board, round 0, all-empty history. -/
theorem c8_reset_restores_start (s : GameState) :
    reloadPage s = initState ∧
    initState.roundNum = 0 ∧
    initState.squares = some emptyBoard ∧
    initState.history = List.replicate 9 none :=
  ⟨rfl, rfl, rfl, rfl⟩

/-- Claim C5: `Clicked` on an occupied cell, or when a winner already
exists, returns the state unchanged (`some s`: no state change, and no
exception — `none` would model a throw). -/
theorem c5_playMove_noop (s : GameState) (b : Board) (index : Nat)
    (hsq : s.squares = some b) (_hidx : index < 9)
    (h : b.getD index none ≠ none ∨ calculateWinner b ≠ none) :
    Clicked s index = some s := by
  simp only [Clicked, hsq]
  rw [if_pos]
  rw [Bool.or_eq_true]
  rcases h with h | h
  · exact Or.inl (Option.isSome_iff_ne_none.mpr h)
  · exact Or.inr (Option.isSome_iff_ne_none.mpr h)

/-- Witness for C5: clicking the occupied cell 0 of `demoState` changes
nothing. -/
theorem c5_witness : Clicked demoState 0 = some demoState :=
  c5_playMove_noop demoState demoBoard2 0 (by decide) (by decide)
    (Or.inl (by decide))

/-- Claim C6: `backToState k` on a filled history slot restores the recorded
pre-move board, sets the round counter to `k`, clears every slot from `k`
on, and leaves the earlier slots unchanged. -/
theorem c6_rewind_restores (s : GameState) (k : Nat) (b0 : Board)
    (_hk : k < 9) (hslot : s.history.getD k none = some b0) :
    (backToState s k).squares = some b0 ∧
    (backToState s k).roundNum = k ∧
    (∀ i, k ≤ i → (backToState s k).history.getD i none = none) ∧
    (∀ i, i < k →
      (backToState s k).history.getD i none = s.history.getD i none) := by
  refine ⟨?_, rfl, ?_, ?_⟩
  · show s.history.getD k none = some b0
    exact hslot
  · intro i hi
    exact getD_clearFrom_of_le _ _ _ hi
  · intro i hi
    exact getD_clearFrom_of_lt _ _ _ hi

/-- Witness for C6: rewinding `demoState` to round 1 restores the
one-X board, slot 5 is cleared, slot 0 keeps its snapshot. -/
theorem c6_witness :
    (backToState demoState 1).squares = some demoBoardX ∧
    (backToState demoState 1).roundNum = 1 ∧
    (backToState demoState 1).history.getD 5 none = none ∧
    (backToState demoState 1).history.getD 0 none
      = demoState.history.getD 0 none := by
  obtain ⟨h1, h2, h3, h4⟩ :=
    c6_rewind_restores demoState 1 demoBoardX (by decide) (by decide)
  exact ⟨h1, h2, h3 5 (by decide), h4 0 (by decide)⟩

/-- Claim C2 counterexample: rewinding to the empty slot 0 of the initial
state does NOT set the board to the all-empty 9-cell board; it sets the
`squares` state to the JS `null` (modelled `none`), a distinct value (the
next render would throw reading `squares[0]`, not draw an empty board). -/
theorem c2_rewind_empty_slot_counterexample :
    initState.history.getD 0 none = none ∧
    (backToState initState 0).squares = none ∧
    (backToState initState 0).squares ≠ some emptyBoard := by
  refine ⟨rfl, rfl, by decide⟩

/-- Claim C2 (amended): `backToState k` on an empty slot sets `squares` to
the JS `null` (not a board), sets the round counter to `k`, clears the
slots from `k` on, and leaves earlier slots unchanged. -/
theorem c2_rewind_empty_slot_sets_null_board (s : GameState) (k : Nat)
    (_hk : k < 9) (hempty : s.history.getD k none = none) :
    (backToState s k).squares = none ∧
    (backToState s k).roundNum = k ∧
    (∀ i, k ≤ i → (backToState s k).history.getD i none = none) ∧
    (∀ i, i < k →
      (backToState s k).history.getD i none = s.history.getD i none) := by
  refine ⟨?_, rfl, ?_, ?_⟩
  · show s.history.getD k none = none
    exact hempty
  · intro i hi
    exact getD_clearFrom_of_le _ _ _ hi
  · intro i hi
    exact getD_clearFrom_of_lt _ _ _ hi

/-- Witness for the amended C2: rewinding `demoState` to the empty slot 5
nulls the board. -/
theorem c2_witness :
    (backToState demoState 5).squares = none ∧
    (backToState demoState 5).roundNum = 5 ∧
    (backToState demoState 5).history.getD 7 none = none ∧
    (backToState demoState 5).history.getD 0 none
      = demoState.history.getD 0 none := by
  obtain ⟨h1, h2, h3, h4⟩ :=
    c2_rewind_empty_slot_sets_null_board demoState 5 (by decide) (by decide)
  exact ⟨h1, h2, h3 7 (by decide), h4 0 (by decide)⟩

/-- Claim C3: a legal `Clicked index` (empty cell, no winner) stores the
pre-move board in `history[roundNum]`, writes marker X on even rounds and O
on odd rounds at `index`, and increments `roundNum` by exactly 1. -/
theorem c3_playMove_effects (s : GameState) (b : Board) (index : Nat)
    (hsq : s.squares = some b) (hlen : b.length = 9) (hidx : index < 9)
    (hempty : b.getD index none = none) (hw : calculateWinner b = none) :
    Clicked s index = some (GameState.mk (s.roundNum + 1)
      (some (b.set index
        (some (if s.roundNum % 2 = 0 then Player.X else Player.O))))
      (jsArraySet s.history s.roundNum (some b))) ∧
    (jsArraySet s.history s.roundNum (some b)).getD s.roundNum none
      = some b ∧
    (b.set index
        (some (if s.roundNum % 2 = 0 then Player.X else Player.O))).getD
        index none
      = some (if s.roundNum % 2 = 0 then Player.X else Player.O) := by
  refine ⟨?_, getD_jsArraySet_self _ _ _, getD_set_eq _ _ _ _ (by omega)⟩
  simp only [Clicked, hsq]
  rw [if_neg (by rw [hempty, hw]; simp)]
  rw [jsArraySet_of_lt b index _ (by omega)]

/-- Witness for C3: X's opening click on the empty cell 4 of the initial
state. -/
theorem c3_witness :
    Clicked initState 4 = some (GameState.mk (initState.roundNum + 1)
      (some (emptyBoard.set 4
        (some (if initState.roundNum % 2 = 0 then Player.X else Player.O))))
      (jsArraySet initState.history initState.roundNum (some emptyBoard))) ∧
    (jsArraySet initState.history initState.roundNum
        (some emptyBoard)).getD initState.roundNum none
      = some emptyBoard ∧
    (emptyBoard.set 4
        (some (if initState.roundNum % 2 = 0 then Player.X else Player.O))).getD
        4 none
      = some (if initState.roundNum % 2 = 0 then Player.X else Player.O) :=
  c3_playMove_effects initState emptyBoard 4 rfl (by decide) (by decide)
    (by decide) (by decide)

/-- Claim C9 (frame effect): a non-no-op `Clicked index` leaves every board
cell other than `index` and every history slot other than `roundNum` as
they were. -/
theorem c9_playMove_frame (s : GameState) (b : Board) (index : Nat)
    (hsq : s.squares = some b) (hempty : b.getD index none = none)
    (hw : calculateWinner b = none) :
    Clicked s index = some (GameState.mk (s.roundNum + 1)
      (some (jsArraySet b index
        (some (if s.roundNum % 2 = 0 then Player.X else Player.O))))
      (jsArraySet s.history s.roundNum (some b))) ∧
    (∀ j, j ≠ index →
      (jsArraySet b index
          (some (if s.roundNum % 2 = 0 then Player.X else Player.O))).getD
          j none
        = b.getD j none) ∧
    (∀ i, i ≠ s.roundNum →
      (jsArraySet s.history s.roundNum (some b)).getD i none
        = s.history.getD i none) := by
  refine ⟨?_, ?_, ?_⟩
  · simp only [Clicked, hsq]
    rw [if_neg (by rw [hempty, hw]; simp)]
  · intro j hj
    exact getD_jsArraySet_ne _ _ _ _ hj
  · intro i hi
    exact getD_jsArraySet_ne _ _ _ _ hi

/-- Witness for C9: X's opening click at 4 leaves cell 0 and history slot 3
unchanged. -/
theorem c9_witness :
    Clicked initState 4 = some (GameState.mk (initState.roundNum + 1)
      (some (jsArraySet emptyBoard 4
        (some (if initState.roundNum % 2 = 0 then Player.X else Player.O))))
      (jsArraySet initState.history initState.roundNum (some emptyBoard))) ∧
    (jsArraySet emptyBoard 4
        (some (if initState.roundNum % 2 = 0 then Player.X else Player.O))).getD
        0 none
      = emptyBoard.getD 0 none ∧
    (jsArraySet initState.history initState.roundNum
        (some emptyBoard)).getD 3 none
      = initState.history.getD 3 none := by
  obtain ⟨h1, h2, h3⟩ :=
    c9_playMove_frame initState emptyBoard 4 rfl (by decide) (by decide)
  exact ⟨h1, h2 0 (by decide), h3 3 (by decide)⟩

/-- Claim C7 (invariant): in every UI-reachable state the board is a real
9-cell array with exactly `roundNum` non-empty cells. -/
theorem c7_marks_eq_roundNum (s : GameState) (b : Board) (hr : Reachable s)
    (hsq : s.squares = some b) : b.length = 9 ∧ marks b = s.roundNum := by
  obtain ⟨⟨b2, hsq2, hlen2, hmk2⟩, _, _⟩ := inv_of_reachable hr
  rw [hsq] at hsq2
  cases hsq2
  exact ⟨hlen2, hmk2⟩

/-- Witness for C7: after the two opening moves the reachable `demoState`
has exactly 2 marks. -/
theorem c7_witness : demoBoard2.length = 9 ∧ marks demoBoard2 = demoState.roundNum :=
  c7_marks_eq_roundNum demoState demoBoard2
    (reachable_clickFold initState [0, 1] Reachable.init (by decide))
    (by decide)

/-- Claim C10: in a reachable state with `roundNum = 9` the board is full,
so `Clicked` is a no-op on every index 0–8 even though the handler never
tests `roundNum`; hence the `history[roundNum]` write only happens with
`roundNum ≤ 8`, and the 9-slot history never grows. -/
theorem c10_roundNine_noop (s : GameState) (index : Nat) (hr : Reachable s)
    (h9 : s.roundNum = 9) (hidx : index < 9) :
    Clicked s index = some s ∧ s.history.length = 9 := by
  obtain ⟨⟨b, hsq, hlen, hmk⟩, hhl, _⟩ := inv_of_reachable hr
  refine ⟨?_, hhl⟩
  simp only [Clicked, hsq]
  rw [if_pos]
  rw [Bool.or_eq_true]
  exact Or.inl (board_full_isSome b (by omega) index (by omega))

/-- Witness for C10: after the 9-move drawn game, clicking cell 0 changes
nothing and the history still has 9 slots. -/
theorem c10_witness :
    Clicked drawState 0 = some drawState ∧ drawState.history.length = 9 :=
  c10_roundNine_noop drawState 0
    (reachable_clickFold initState mvSeqDraw Reachable.init (by decide))
    (by decide) (by decide)

/-- Claim C1: the claim says the winner message takes precedence whenever a
winner exists, even at `roundNum ≥ 9`. The code tests `roundNum >= 9` first,
so the reachable game `win9State` — won by X exactly on the 9th move —
displays the draw message although `calculateWinner` returns X. -/
theorem c1_ninth_move_win_reports_draw :
    Reachable win9State ∧
    win9State.roundNum = 9 ∧
    win9State.squares = some win9Board ∧
    calculateWinner win9Board = some Player.X ∧
    checkGameOverStatus win9State.roundNum win9Board
      = "Game Over, it\x27s a draw!" ∧
    checkGameOverStatus win9State.roundNum win9Board
      ≠ "Winner: " ++ Player.X.str := by
  refine ⟨reachable_clickFold initState mvSeqWin9 Reachable.init (by decide),
    by decide, by decide, by decide, by decide, by decide⟩

end TicTacToe
